import Mathlib

/-!
# elb-creator-aws-connector: validation and the request/report pipeline

A shallow embedding of `event.go` and `main.go`.

* Go strings are `String`, `int64` is `Int` (only compared, never computed with),
  a Go slice is `Option (List α)` where `none` is the nil slice, a Go `error`
  value is `Option GoError` where `none` is `nil`.
* `*Event` receivers that are mutated in place become functions returning the
  updated `Event`.
* The NATS connection `nc`, the logger and the AWS client are observed through
  the ordered list of effects an invocation performs.
-/

namespace ElbCreator

/-! ## Data model (event.go) -/

/-- A Go `error` value, identified by the text its `Error()` method returns. -/
structure GoError where
  msg : String
  deriving DecidableEq, Repr

def ErrDatacenterIDInvalid : GoError := ⟨"Datacenter VPC ID invalid"⟩
def ErrDatacenterRegionInvalid : GoError := ⟨"Datacenter Region invalid"⟩
def ErrDatacenterCredentialsInvalid : GoError := ⟨"Datacenter credentials invalid"⟩
def ErrELBNameInvalid : GoError := ⟨"ELB name is invalid"⟩
def ErrELBProtocolInvalid : GoError := ⟨"ELB protocol invalid"⟩
def ErrELBFromPortInvalid : GoError := ⟨"ELB from port invalid"⟩
def ErrELBToPortInvalid : GoError := ⟨"ELB to port invalid"⟩

/-- The elements a `range` loop over a Go slice visits: none for the nil slice. -/
def elems {α : Type} : Option (List α) → List α
  | none => []
  | some xs => xs

/-- The struct `Listener` of event.go. -/
structure Listener where
  FromPort : Int
  ToPort : Int
  Protocol : String
  SSLCertID : String
  deriving DecidableEq, Repr

/-- The struct `Event` of event.go, fields in declaration order. -/
structure Event where
  UUID : String
  BatchID : String
  ProviderType : String
  DatacenterName : String
  DatacenterRegion : String
  DatacenterToken : String
  DatacenterSecret : String
  VPCID : String
  ELBName : String
  ELBIsPrivate : Bool
  ELBListeners : Option (List Listener)
  ELBDNSName : String
  InstanceNames : Option (List String)
  InstanceAWSIDs : Option (List String)
  NetworkAWSIDs : Option (List String)
  SecurityGroups : Option (List String)
  SecurityGroupAWSIDs : Option (List String)
  ErrorMessage : String
  deriving DecidableEq, Repr

/-- The zero value that `var e Event` declares. -/
def Event.zero : Event :=
  { UUID := "", BatchID := "", ProviderType := "", DatacenterName := "",
    DatacenterRegion := "", DatacenterToken := "", DatacenterSecret := "",
    VPCID := "", ELBName := "", ELBIsPrivate := false, ELBListeners := none,
    ELBDNSName := "", InstanceNames := none, InstanceAWSIDs := none,
    NetworkAWSIDs := none, SecurityGroups := none, SecurityGroupAWSIDs := none,
    ErrorMessage := "" }

/-! ## Validate (event.go, lines 53-91) -/

/-- The `for _, listener := range ev.ELBListeners` loop of `Validate`: the body
runs on each listener in turn and the first `return` ends the loop. -/
def validateListeners : List Listener → Option GoError
  | [] => none
  | listener :: rest =>
    if listener.Protocol = "" then some ErrELBProtocolInvalid
    else if listener.FromPort < 1 ∨ listener.FromPort > 65535 then some ErrELBFromPortInvalid
    else if listener.ToPort < 1 ∨ listener.ToPort > 65535 then some ErrELBToPortInvalid
    else if listener.Protocol ≠ "HTTP" ∧ listener.Protocol ≠ "HTTPS" ∧
        listener.Protocol ≠ "TCP" ∧ listener.Protocol ≠ "SSL" then some ErrELBProtocolInvalid
    else validateListeners rest

/-- The method `Event.Validate`; `none` is the `nil` error. -/
def Event.Validate (ev : Event) : Option GoError :=
  if ev.VPCID = "" then some ErrDatacenterIDInvalid
  else if ev.DatacenterRegion = "" then some ErrDatacenterRegionInvalid
  else if ev.DatacenterSecret = "" ∨ ev.DatacenterToken = "" then
    some ErrDatacenterCredentialsInvalid
  else if ev.ELBName = "" then some ErrELBNameInvalid
  else validateListeners (elems ev.ELBListeners)

/-! ### The validation rules as the specification words them -/

/-- The protocols the specification allows. -/
def allowedProtocols : List String := ["HTTP", "HTTPS", "TCP", "SSL"]

/-- A port is in range when it lies in [1, 65535]. -/
def portInRange (p : Int) : Prop := 1 ≤ p ∧ p ≤ 65535

instance (p : Int) : Decidable (portInRange p) := by
  unfold portInRange; infer_instance

/-- The specification of the per-listener checks: the first failing one of
protocol non-empty, from-port in range, to-port in range, protocol allowed. -/
def listenerDefect (l : Listener) : Option GoError :=
  if l.Protocol = "" then some ErrELBProtocolInvalid
  else if ¬ portInRange l.FromPort then some ErrELBFromPortInvalid
  else if ¬ portInRange l.ToPort then some ErrELBToPortInvalid
  else if l.Protocol ∉ allowedProtocols then some ErrELBProtocolInvalid
  else none

/-- The specification of `validate()`: the required fields in their fixed order,
then the defect of the lowest-index listener that has one. -/
def validateSpec (ev : Event) : Option GoError :=
  if ev.VPCID = "" then some ErrDatacenterIDInvalid
  else if ev.DatacenterRegion = "" then some ErrDatacenterRegionInvalid
  else if ev.DatacenterToken = "" ∨ ev.DatacenterSecret = "" then
    some ErrDatacenterCredentialsInvalid
  else if ev.ELBName = "" then some ErrELBNameInvalid
  else
    match (elems ev.ELBListeners).find? (fun l => (listenerDefect l).isSome) with
    | some l => listenerDefect l
    | none => none

/-- A listener is valid when its protocol is allowed and both ports are in range. -/
def listenerValid (l : Listener) : Prop :=
  l.Protocol ∈ allowedProtocols ∧ portInRange l.FromPort ∧ portInRange l.ToPort

/-- The five required fields are all non-empty. -/
def requiredFieldsSet (ev : Event) : Prop :=
  ev.VPCID ≠ "" ∧ ev.DatacenterRegion ≠ "" ∧ ev.DatacenterToken ≠ "" ∧
    ev.DatacenterSecret ≠ "" ∧ ev.ELBName ≠ ""

instance (ev : Event) : Decidable (requiredFieldsSet ev) := by
  unfold requiredFieldsSet; infer_instance

/-- The request of the first scenario of the specification, with one instance
to register. -/
def sampleEvent : Event :=
  { Event.zero with
    VPCID := "vpc-1", DatacenterRegion := "us-east-1", DatacenterToken := "t",
    DatacenterSecret := "s", ELBName := "lb1",
    ELBListeners := some [⟨80, 8080, "HTTP", ""⟩],
    InstanceAWSIDs := some ["i-1"] }

/-- A request with a second listener whose from-port is 0 and
a third one whose protocol is unknown: the from-port error of the second wins. -/
def twoDefectsEvent : Event :=
  { sampleEvent with
    ELBListeners := some [⟨80, 8080, "HTTP", ""⟩, ⟨0, 70000, "HTTP", ""⟩, ⟨1, 1, "FTP", ""⟩] }

/-- A well-formed request without any listener. -/
def noListenerEvent : Event := { sampleEvent with ELBListeners := none }

/-! ## Serialization (the struct tags of event.go)

`encoding/json` is an external library. What the embedding keeps of it is the
JSON document `json.Marshal` builds from the struct tags: one member per field,
in declaration order, a field tagged `omitempty` left out when it is empty, a
nil slice rendered as `null`. The rendering of the document as bytes is not
modelled: a payload is either raw bytes or a document. -/

/-- A JSON document. -/
inductive JVal where
  | null
  | bool (b : Bool)
  | num (n : Int)
  | str (s : String)
  | arr (items : List JVal)
  | obj (members : List (String × JVal))

/-- The member of an object with the given key, if there is one. -/
def JVal.field (key : String) : JVal → Option JVal
  | JVal.obj members => members.lookup key
  | _ => none

/-- The text of a member that is a JSON string. -/
def JVal.stringField (key : String) (doc : JVal) : Option String :=
  match doc.field key with
  | some (JVal.str s) => some s
  | _ => none

/-- The key is present in the object. -/
def JVal.hasKey (key : String) (doc : JVal) : Bool :=
  (doc.field key).isSome

/-- The member is absent, or present with the empty string as value. -/
def JVal.emptyOrAbsent (key : String) (doc : JVal) : Bool :=
  match doc.field key with
  | none => true
  | some (JVal.str s) => decide (s = "")
  | some _ => false

/-- A string field tagged `omitempty`: no member when the string is empty. -/
def omitEmpty (key : String) (s : String) : List (String × JVal) :=
  if s = "" then [] else [(key, JVal.str s)]

/-- A slice field: `null` for the nil slice, else the array of its elements. -/
def sliceJSON {α : Type} (f : α → JVal) : Option (List α) → JVal
  | none => JVal.null
  | some xs => JVal.arr (xs.map f)

/-- The document of a `Listener`, by its struct tags. -/
def Listener.toJSON (l : Listener) : JVal :=
  JVal.obj [("from_port", JVal.num l.FromPort), ("to_port", JVal.num l.ToPort),
    ("protocol", JVal.str l.Protocol), ("ssl_cert", JVal.str l.SSLCertID)]

/-- The document of an `Event`, by its struct tags: `datacenter_name` and `error`
are `omitempty`, `dns_name` is not. -/
def Event.toJSON (ev : Event) : JVal :=
  JVal.obj (
    [("_uuid", JVal.str ev.UUID), ("_batch_id", JVal.str ev.BatchID),
      ("_type", JVal.str ev.ProviderType)] ++
    omitEmpty "datacenter_name" ev.DatacenterName ++
    [("datacenter_region", JVal.str ev.DatacenterRegion),
      ("datacenter_token", JVal.str ev.DatacenterToken),
      ("datacenter_secret", JVal.str ev.DatacenterSecret),
      ("vpc_id", JVal.str ev.VPCID),
      ("name", JVal.str ev.ELBName),
      ("is_private", JVal.bool ev.ELBIsPrivate),
      ("listeners", sliceJSON Listener.toJSON ev.ELBListeners),
      ("dns_name", JVal.str ev.ELBDNSName),
      ("instance_names", sliceJSON JVal.str ev.InstanceNames),
      ("instance_aws_ids", sliceJSON JVal.str ev.InstanceAWSIDs),
      ("network_aws_ids", sliceJSON JVal.str ev.NetworkAWSIDs),
      ("security_groups", sliceJSON JVal.str ev.SecurityGroups),
      ("security_group_aws_ids", sliceJSON JVal.str ev.SecurityGroupAWSIDs)] ++
    omitEmpty "error" ev.ErrorMessage)

/-- The bytes of a message. -/
abbrev Bytes := List Nat

/-- The data of a published message: bytes passed through untouched, or the
encoding of a document. -/
inductive Payload where
  | raw (data : Bytes)
  | document (doc : JVal)

/-- The behaviour of `json.Marshal` on an `Event`: the struct holds only strings,
booleans, integers and slices of these, so the library reports no error. -/
def jsonMarshal (ev : Event) : Except GoError Payload :=
  Except.ok (Payload.document ev.toJSON)

/-! ## The AWS SDK types main.go fills in -/

/-- The SDK struct `elb.Listener`. -/
structure ElbListener where
  Protocol : String
  LoadBalancerPort : Int
  InstancePort : Int
  InstanceProtocol : String
  SSLCertificateId : String
  deriving DecidableEq, Repr

/-- The SDK struct `elb.CreateLoadBalancerInput`, the fields main.go sets. -/
structure CreateLoadBalancerInput where
  LoadBalancerName : String
  Listeners : List ElbListener
  Scheme : Option String
  SecurityGroups : List String
  Subnets : List String
  deriving DecidableEq, Repr

/-- The SDK struct `elb.CreateLoadBalancerOutput`; `DNSName` is a pointer. -/
structure CreateLoadBalancerOutput where
  DNSName : Option String
  deriving DecidableEq, Repr

/-- The SDK struct `elb.RegisterInstancesWithLoadBalancerInput`; an instance is
its `InstanceId`. -/
structure RegisterInstancesWithLoadBalancerInput where
  LoadBalancerName : String
  Instances : List String
  deriving DecidableEq, Repr

/-- What `elb.New` is configured with: the region and the static credentials. -/
structure AwsConfig where
  Region : String
  AccessKeyID : String
  SecretAccessKey : String
  SessionToken : String
  deriving DecidableEq, Repr

/-- The two calls of the AWS client, as functions of the client configuration
and the request. -/
structure ElbService where
  CreateLoadBalancer :
    AwsConfig → CreateLoadBalancerInput → Except GoError CreateLoadBalancerOutput
  RegisterInstancesWithLoadBalancer :
    AwsConfig → RegisterInstancesWithLoadBalancerInput → Except GoError Unit

/-- The fields main.go reads from an `Event` that the struct `Event` of event.go
does not declare (`ev.ELBPorts`, `ev.DatacenterAccessKey`,
`ev.DatacenterAccessToken`). Nothing in the sources says what they hold, so they
are parameters of the functions that read them. -/
structure UndeclaredFields where
  ELBPorts : Event → Option (List Listener)
  DatacenterAccessKey : Event → String
  DatacenterAccessToken : Event → String

/-! ## Effects of an invocation -/

/-- What an invocation does to the outside, in the order it does it. -/
inductive Effect where
  | publish (subject : String) (data : Payload)
  | log (line : String)
  | createLoadBalancer (cfg : AwsConfig) (req : CreateLoadBalancerInput)
  | registerInstances (cfg : AwsConfig) (req : RegisterInstancesWithLoadBalancerInput)

/-- How a call ends: it returns, or it panics (`log.Panic`). -/
inductive Outcome (α : Type) where
  | returned (val : α) (trace : List Effect)
  | panicked (err : GoError) (trace : List Effect)

/-- The effects performed up to the end of the call. -/
def Outcome.trace {α : Type} : Outcome α → List Effect
  | Outcome.returned _ t => t
  | Outcome.panicked _ t => t

/-- The call ended in a panic. -/
def Outcome.isPanic {α : Type} : Outcome α → Bool
  | Outcome.returned _ _ => false
  | Outcome.panicked _ _ => true

/-- The messages published, as (subject, data), in order. -/
def published : List Effect → List (String × Payload)
  | [] => []
  | Effect.publish subject data :: rest => (subject, data) :: published rest
  | _ :: rest => published rest

/-- The data of the messages published on one subject, in order. -/
def publishedOn (subject : String) (t : List Effect) : List Payload :=
  ((published t).filter (fun m => m.1 == subject)).map (fun m => m.2)

/-- The effect is a call of the AWS client. -/
def Effect.isProviderCall : Effect → Bool
  | Effect.createLoadBalancer _ _ => true
  | Effect.registerInstances _ _ => true
  | _ => false

/-- The effect is the instance-registration call. -/
def Effect.isRegisterCall : Effect → Bool
  | Effect.registerInstances _ _ => true
  | _ => false

def errorSubject : String := "elb.create.aws.error"
def doneSubject : String := "elb.create.aws.done"

/-! ## The methods of event.go that publish -/

/-- The method `Event.Process`: `unmarshal` is `json.Unmarshal` writing into the
event; the result is the event, the error and the effects so far. -/
def Event.Process (unmarshal : Bytes → Event → Event × Option GoError)
    (ev : Event) (data : Bytes) (t : List Effect) :
    Event × Option GoError × List Effect :=
  match unmarshal data ev with
  | (ev1, some err) => (ev1, some err, t ++ [Effect.publish "elb.create.aws.error" (Payload.raw data)])
  | (ev1, none) => (ev1, none, t)

/-- The assignment `ev.ErrorMessage = err.Error()`. -/
def Event.setErrorMessage (ev : Event) (text : String) : Event :=
  { ev with ErrorMessage := text }

/-- The method `Event.Error`: log, set the error field, marshal, publish; a
marshalling error ends in `log.Panic`. -/
def Event.Error (marshal : Event → Except GoError Payload)
    (ev : Event) (err : GoError) (t : List Effect) : Outcome Event :=
  let t1 := t ++ [Effect.log ("Error: " ++ err.msg)]
  let ev1 := ev.setErrorMessage err.msg
  match marshal ev1 with
  | Except.error merr => Outcome.panicked merr (t1 ++ [Effect.log merr.msg])
  | Except.ok data => Outcome.returned ev1 (t1 ++ [Effect.publish "elb.create.aws.error" data])

/-- The method `Event.Complete`: marshal; on a marshalling error call `Error`,
and in either case go on to publish `data` (nil after an error) on the done
subject, as the `if` has no `return`. -/
def Event.Complete (marshal : Event → Except GoError Payload)
    (ev : Event) (t : List Effect) : Outcome Event :=
  match marshal ev with
  | Except.error merr =>
    match Event.Error marshal ev merr t with
    | Outcome.panicked p t1 => Outcome.panicked p t1
    | Outcome.returned ev1 t1 =>
      Outcome.returned ev1 (t1 ++ [Effect.publish "elb.create.aws.done" (Payload.raw [])])
  | Except.ok data =>
    Outcome.returned ev (t ++ [Effect.publish "elb.create.aws.done" data])

/-! ## main.go -/

/-- The literal `&elb.Listener{...}` that `mapListeners` appends for `port`. -/
def listenerLiteral (port : Listener) : ElbListener :=
  { Protocol := port.Protocol,
    LoadBalancerPort := port.FromPort,
    InstancePort := port.ToPort,
    InstanceProtocol := port.Protocol,
    SSLCertificateId := port.SSLCertID }

/-- The function `mapListeners`: `l` starts nil and each pass appends one
descriptor. -/
def mapListeners (fields : UndeclaredFields) (ev : Event) : List ElbListener :=
  (elems (fields.ELBPorts ev)).foldl (fun l port => l ++ [listenerLiteral port]) []

/-- The client configuration `createELB` builds. -/
def clientConfig (fields : UndeclaredFields) (ev : Event) : AwsConfig :=
  { Region := ev.DatacenterRegion,
    AccessKeyID := fields.DatacenterAccessKey ev,
    SecretAccessKey := fields.DatacenterAccessToken ev,
    SessionToken := "" }

/-- The creation request `createELB` builds. -/
def createRequest (fields : UndeclaredFields) (ev : Event) : CreateLoadBalancerInput :=
  { LoadBalancerName := ev.ELBName,
    Listeners := mapListeners fields ev,
    Scheme := if ev.ELBIsPrivate then some "internal" else none,
    SecurityGroups := (elems ev.SecurityGroupAWSIDs).foldl (fun acc sg => acc ++ [sg]) [],
    Subnets := (elems ev.NetworkAWSIDs).foldl (fun acc subnet => acc ++ [subnet]) [] }

/-- The registration request `createELB` builds. -/
def registerRequest (ev : Event) : RegisterInstancesWithLoadBalancerInput :=
  { LoadBalancerName := ev.ELBName,
    Instances := (elems ev.InstanceAWSIDs).foldl (fun acc instanceID => acc ++ [instanceID]) [] }

/-- The statement `if resp.DNSName != nil { ev.ELBDNSName = *resp.DNSName }`. -/
def captureDNS (ev : Event) (resp : CreateLoadBalancerOutput) : Event :=
  match resp.DNSName with
  | some dns => { ev with ELBDNSName := dns }
  | none => ev

/-- The function `createELB`: the updated event, the error returned and the
effects so far. -/
def createELB (fields : UndeclaredFields) (svc : ElbService) (ev : Event)
    (t : List Effect) : Event × Option GoError × List Effect :=
  let cfg := clientConfig fields ev
  let req := createRequest fields ev
  let t1 := t ++ [Effect.createLoadBalancer cfg req]
  match svc.CreateLoadBalancer cfg req with
  | Except.error err => (ev, some err, t1)
  | Except.ok resp =>
    let ev1 := captureDNS ev resp
    let ireq := registerRequest ev1
    let t2 := t1 ++ [Effect.registerInstances cfg ireq]
    match svc.RegisterInstancesWithLoadBalancer cfg ireq with
    | Except.error err => (ev1, some err, t2)
    | Except.ok _ => (ev1, none, t2)

/-- The function `eventHandler` on the data of one inbound message. -/
def eventHandler (unmarshal : Bytes → Event → Event × Option GoError)
    (marshal : Event → Except GoError Payload) (fields : UndeclaredFields)
    (svc : ElbService) (data : Bytes) : Outcome Event :=
  match Event.Process unmarshal Event.zero data [] with
  | (e, some _, t) => Outcome.returned e t
  | (e, none, t) =>
    match e.Validate with
    | some verr => Event.Error marshal e verr t
    | none =>
      match createELB fields svc e t with
      | (e1, some cerr, t1) => Event.Error marshal e1 cerr t1
      | (e1, none, t1) => Event.Complete marshal e1 t1

/-! ## Sample inputs -/

/-- The reading of the undeclared names of main.go as the fields event.go
declares in their place. -/
def renamedFields : UndeclaredFields :=
  { ELBPorts := fun ev => ev.ELBListeners,
    DatacenterAccessKey := fun ev => ev.DatacenterToken,
    DatacenterAccessToken := fun ev => ev.DatacenterSecret }

/-- A decoder that fills the event in and reports no error. -/
def decodesTo (ev : Event) : Bytes → Event → Event × Option GoError :=
  fun _ _ => (ev, none)

/-- A decoder that rejects its input and leaves the event as it was. -/
def rejects : Bytes → Event → Event × Option GoError :=
  fun _ ev => (ev, some ⟨"unexpected end of JSON input"⟩)

/-- The bytes of an inbound message (an opening brace only). -/
def sampleBytes : Bytes := [123]

/-- A client whose two calls succeed; the load balancer gets a DNS name. -/
def okService : ElbService :=
  { CreateLoadBalancer := fun _ _ => Except.ok ⟨some "lb1.example.com"⟩,
    RegisterInstancesWithLoadBalancer := fun _ _ => Except.ok () }

/-- A client whose creation call fails. -/
def createFailsService : ElbService :=
  { CreateLoadBalancer := fun _ _ => Except.error ⟨"RequestError: send request failed"⟩,
    RegisterInstancesWithLoadBalancer := fun _ _ => Except.ok () }

/-- A client that creates the load balancer and then fails to register. -/
def registerFailsService : ElbService :=
  { CreateLoadBalancer := fun _ _ => Except.ok ⟨some "lb1.example.com"⟩,
    RegisterInstancesWithLoadBalancer := fun _ _ => Except.error ⟨"InvalidInstance"⟩ }

/-- A valid request whose inbound payload already carried result fields. -/
def staleResultEvent : Event :=
  { sampleEvent with ELBDNSName := "old.example.com", ErrorMessage := "stale failure" }

/-- A valid request that holds a DNS name. -/
def namedEvent : Event := { sampleEvent with ELBDNSName := "lb1.example.com" }

/-- A request without a VPC ID. -/
def noVpcEvent : Event := { sampleEvent with VPCID := "" }

/-! ## Lemmas on validation -/

theorem listenerDefect_eq_none_iff (l : Listener) :
    listenerDefect l = none ↔ listenerValid l := by
  unfold listenerDefect listenerValid portInRange allowedProtocols
  by_cases h1 : l.Protocol = ""
  · simp [h1]
  · by_cases h2 : (1 ≤ l.FromPort ∧ l.FromPort ≤ 65535)
    · by_cases h3 : (1 ≤ l.ToPort ∧ l.ToPort ≤ 65535)
      · by_cases h4 : l.Protocol ∈ ["HTTP", "HTTPS", "TCP", "SSL"]
        · simp [h1, h2, h3, h4]
        · simp [h1, h2, h3, h4]
      · simp [h1, h2, h3]
    · simp [h1, h2]

/-- One pass of the loop body agrees with the specification of the checks. -/
theorem validateListeners_cons (l : Listener) (rest : List Listener) :
    validateListeners (l :: rest) =
      match listenerDefect l with
      | some e => some e
      | none => validateListeners rest := by
  rw [validateListeners]
  unfold listenerDefect portInRange allowedProtocols
  by_cases h1 : l.Protocol = ""
  · simp [h1]
  · by_cases h2 : l.FromPort < 1 ∨ l.FromPort > 65535
    · have h2n : ¬ (1 ≤ l.FromPort ∧ l.FromPort ≤ 65535) := by omega
      simp [h1, h2, h2n]
    · have h2p : (1 ≤ l.FromPort ∧ l.FromPort ≤ 65535) := by omega
      by_cases h3 : l.ToPort < 1 ∨ l.ToPort > 65535
      · have h3n : ¬ (1 ≤ l.ToPort ∧ l.ToPort ≤ 65535) := by omega
        simp [h1, h2, h2p, h3, h3n]
      · have h3p : (1 ≤ l.ToPort ∧ l.ToPort ≤ 65535) := by omega
        by_cases h4 : l.Protocol ≠ "HTTP" ∧ l.Protocol ≠ "HTTPS" ∧
            l.Protocol ≠ "TCP" ∧ l.Protocol ≠ "SSL"
        · have h4n : l.Protocol ∉ ["HTTP", "HTTPS", "TCP", "SSL"] := by
            simp only [List.mem_cons, List.mem_singleton, List.not_mem_nil, or_false, not_or]
            exact h4
          simp [h1, h2, h2p, h3, h3p, h4, h4n]
        · have h4p : l.Protocol ∈ ["HTTP", "HTTPS", "TCP", "SSL"] := by
            simp only [List.mem_cons, List.mem_singleton, List.not_mem_nil, or_false]
            by_contra hc
            exact h4 (by simpa [not_or] using hc)
          simp [h1, h2, h2p, h3, h3p, h4, h4p]

/-- The loop returns the defect of the first listener that has one. -/
theorem validateListeners_eq_find (ls : List Listener) :
    validateListeners ls =
      match ls.find? (fun l => (listenerDefect l).isSome) with
      | some l => listenerDefect l
      | none => none := by
  induction ls with
  | nil => simp [validateListeners]
  | cons l rest ih =>
    rw [validateListeners_cons]
    cases hd : listenerDefect l with
    | none => simp [List.find?, hd, ih]
    | some e => simp [List.find?, hd]

theorem validateListeners_eq_none_iff (ls : List Listener) :
    validateListeners ls = none ↔ ∀ l ∈ ls, listenerValid l := by
  induction ls with
  | nil => simp [validateListeners]
  | cons l rest ih =>
    rw [validateListeners_cons]
    cases hd : listenerDefect l with
    | none =>
      have hv := (listenerDefect_eq_none_iff l).mp hd
      simp [ih, hv]
    | some e =>
      have hv : ¬ listenerValid l := fun h => by
        rw [(listenerDefect_eq_none_iff l).mpr h] at hd
        cases hd
      simp [hv]

/-- Listeners after the first defective one are never looked at. -/
theorem validateListeners_append (pre post : List Listener) (l : Listener) (e : GoError)
    (hpre : ∀ x ∈ pre, listenerDefect x = none) (hl : listenerDefect l = some e) :
    validateListeners (pre ++ l :: post) = some e := by
  induction pre with
  | nil => simp [validateListeners_cons, hl]
  | cons x xs ih =>
    have hx : listenerDefect x = none := hpre x (List.mem_cons_self x xs)
    have hxs : ∀ y ∈ xs, listenerDefect y = none :=
      fun y hy => hpre y (List.mem_cons_of_mem x hy)
    simp only [List.cons_append]
    rw [validateListeners_cons, hx]
    exact ih hxs

theorem validate_of_requiredFieldsSet (ev : Event) (h : requiredFieldsSet ev) :
    ev.Validate = validateListeners (elems ev.ELBListeners) := by
  obtain ⟨h1, h2, h3, h4, h5⟩ := h
  simp [Event.Validate, h1, h2, h3, h4, h5]

theorem requiredFieldsSet_of_validate (ev : Event) (h : ev.Validate = none) :
    requiredFieldsSet ev := by
  unfold Event.Validate at h
  unfold requiredFieldsSet
  by_cases h1 : ev.VPCID = ""
  · simp [h1] at h
  by_cases h2 : ev.DatacenterRegion = ""
  · simp [h1, h2] at h
  by_cases h3 : ev.DatacenterSecret = "" ∨ ev.DatacenterToken = ""
  · simp [h1, h2, h3] at h
  by_cases h4 : ev.ELBName = ""
  · simp [h1, h2, h3, h4] at h
  exact ⟨h1, h2, fun h => h3 (Or.inr h), fun h => h3 (Or.inl h), h4⟩

/-! ## C1 and C2: what Validate returns -/

/-- C1: `Validate` returns the first failing check of the fixed order and nothing
else. It agrees on every Event with the specification `validateSpec`: VPC ID,
then region, then token or secret, then name, then the defect of the first
listener that has one (protocol empty, from-port out of range, to-port out of
range, protocol not allowed, in that order). Once a check fails, no later field
and no later listener changes the error: each required-field error is returned
whatever the later fields hold, and a listener with a defect that is preceded
only by listeners without one decides the result whatever follows it. -/
theorem validate_first_failure :
    (∀ ev : Event, ev.Validate = validateSpec ev) ∧
    (∀ ev : Event, ev.VPCID = "" → ev.Validate = some ErrDatacenterIDInvalid) ∧
    (∀ ev : Event, ev.VPCID ≠ "" → ev.DatacenterRegion = "" →
      ev.Validate = some ErrDatacenterRegionInvalid) ∧
    (∀ ev : Event, ev.VPCID ≠ "" → ev.DatacenterRegion ≠ "" →
      (ev.DatacenterToken = "" ∨ ev.DatacenterSecret = "") →
      ev.Validate = some ErrDatacenterCredentialsInvalid) ∧
    (∀ ev : Event, ev.VPCID ≠ "" → ev.DatacenterRegion ≠ "" →
      ev.DatacenterToken ≠ "" → ev.DatacenterSecret ≠ "" → ev.ELBName = "" →
      ev.Validate = some ErrELBNameInvalid) ∧
    (∀ (ev : Event) (pre post : List Listener) (l : Listener) (e : GoError),
      requiredFieldsSet ev → elems ev.ELBListeners = pre ++ l :: post →
      (∀ x ∈ pre, listenerDefect x = none) → listenerDefect l = some e →
      ev.Validate = some e) := by
  refine ⟨?_, ?_, ?_, ?_, ?_, ?_⟩
  · intro ev
    unfold Event.Validate validateSpec
    by_cases h1 : ev.VPCID = ""
    · simp [h1]
    by_cases h2 : ev.DatacenterRegion = ""
    · simp [h1, h2]
    by_cases h3 : ev.DatacenterSecret = "" ∨ ev.DatacenterToken = ""
    · have h3s : ev.DatacenterToken = "" ∨ ev.DatacenterSecret = "" := h3.symm
      simp only [h1, h2, h3, h3s, if_true, if_false]
    have h3s : ¬ (ev.DatacenterToken = "" ∨ ev.DatacenterSecret = "") := fun h => h3 h.symm
    by_cases h4 : ev.ELBName = ""
    · simp only [h1, h2, h3, h3s, h4, if_true, if_false]
    simp only [h1, h2, h3, h3s, h4, if_false]
    exact validateListeners_eq_find _
  · intro ev h1
    simp [Event.Validate, h1]
  · intro ev h1 h2
    simp [Event.Validate, h1, h2]
  · intro ev h1 h2 h3
    have h3s : ev.DatacenterSecret = "" ∨ ev.DatacenterToken = "" := h3.symm
    simp only [Event.Validate, h1, h2, h3s, if_true, if_false]
  · intro ev h1 h2 h3 h4 h5
    simp [Event.Validate, h1, h2, h3, h4, h5]
  · intro ev pre post l e hreq hls hpre hl
    rw [validate_of_requiredFieldsSet ev hreq, hls]
    exact validateListeners_append pre post l e hpre hl

theorem validate_first_failure_witness :
    twoDefectsEvent.Validate = validateSpec twoDefectsEvent ∧
    twoDefectsEvent.Validate = some ErrELBFromPortInvalid := by
  have h := validate_first_failure
  refine ⟨h.1 twoDefectsEvent, ?_⟩
  exact h.2.2.2.2.2 twoDefectsEvent [⟨80, 8080, "HTTP", ""⟩] [⟨1, 1, "FTP", ""⟩]
    ⟨0, 70000, "HTTP", ""⟩ ErrELBFromPortInvalid (by decide) rfl (by decide) (by decide)

/-- C2: `Validate` returns no error exactly when VPC ID, region, token, secret and
name are all non-empty and every listener has an allowed protocol and both ports
in [1, 65535]; in particular an Event with the five fields set and no listener
(a nil or an empty slice) passes. -/
theorem validate_ok_iff :
    (∀ ev : Event, ev.Validate = none ↔
      (requiredFieldsSet ev ∧ ∀ l ∈ elems ev.ELBListeners, listenerValid l)) ∧
    (∀ ev : Event, requiredFieldsSet ev → elems ev.ELBListeners = [] →
      ev.Validate = none) := by
  have key : ∀ ev : Event, ev.Validate = none ↔
      (requiredFieldsSet ev ∧ ∀ l ∈ elems ev.ELBListeners, listenerValid l) := by
    intro ev
    constructor
    · intro h
      have hreq := requiredFieldsSet_of_validate ev h
      rw [validate_of_requiredFieldsSet ev hreq] at h
      exact ⟨hreq, (validateListeners_eq_none_iff _).mp h⟩
    · rintro ⟨hreq, hall⟩
      rw [validate_of_requiredFieldsSet ev hreq]
      exact (validateListeners_eq_none_iff _).mpr hall
  refine ⟨key, ?_⟩
  intro ev hreq hnil
  refine (key ev).mpr ⟨hreq, ?_⟩
  rw [hnil]
  intro l hl
  cases hl

theorem validate_ok_iff_witness :
    requiredFieldsSet noListenerEvent ∧ elems noListenerEvent.ELBListeners = [] ∧
    noListenerEvent.Validate = none :=
  ⟨by decide, rfl, validate_ok_iff.2 noListenerEvent (by decide) rfl⟩

/-! ## Lemmas on the pipeline -/

theorem foldl_append_singleton {α β : Type} (f : α → β) (xs : List α) (init : List β) :
    xs.foldl (fun acc x => acc ++ [f x]) init = init ++ xs.map f := by
  induction xs generalizing init with
  | nil => simp
  | cons x rest ih => simp [List.foldl, ih]

theorem process_decode_ok (unmarshal : Bytes → Event → Event × Option GoError)
    (ev0 ev : Event) (data : Bytes) (t : List Effect)
    (h : unmarshal data ev0 = (ev, none)) :
    Event.Process unmarshal ev0 data t = (ev, none, t) := by
  simp [Event.Process, h]

theorem process_decode_error (unmarshal : Bytes → Event → Event × Option GoError)
    (ev0 ev : Event) (data : Bytes) (t : List Effect) (err : GoError)
    (h : unmarshal data ev0 = (ev, some err)) :
    Event.Process unmarshal ev0 data t =
      (ev, some err, t ++ [Effect.publish errorSubject (Payload.raw data)]) := by
  simp [Event.Process, h, errorSubject]

theorem error_jsonMarshal (ev : Event) (err : GoError) (t : List Effect) :
    Event.Error jsonMarshal ev err t =
      Outcome.returned (ev.setErrorMessage err.msg)
        (t ++ [Effect.log ("Error: " ++ err.msg),
          Effect.publish errorSubject
            (Payload.document (ev.setErrorMessage err.msg).toJSON)]) := by
  simp [Event.Error, jsonMarshal, errorSubject]

theorem complete_jsonMarshal (ev : Event) (t : List Effect) :
    Event.Complete jsonMarshal ev t =
      Outcome.returned ev
        (t ++ [Effect.publish doneSubject (Payload.document ev.toJSON)]) := by
  simp [Event.Complete, jsonMarshal, doneSubject]

theorem createELB_create_failed (fields : UndeclaredFields) (svc : ElbService)
    (ev : Event) (t : List Effect) (err : GoError)
    (h : svc.CreateLoadBalancer (clientConfig fields ev) (createRequest fields ev) =
      Except.error err) :
    createELB fields svc ev t =
      (ev, some err,
        t ++ [Effect.createLoadBalancer (clientConfig fields ev) (createRequest fields ev)]) := by
  simp [createELB, h]

theorem createELB_register_failed (fields : UndeclaredFields) (svc : ElbService)
    (ev : Event) (t : List Effect) (resp : CreateLoadBalancerOutput) (err : GoError)
    (hc : svc.CreateLoadBalancer (clientConfig fields ev) (createRequest fields ev) =
      Except.ok resp)
    (hr : svc.RegisterInstancesWithLoadBalancer (clientConfig fields ev)
      (registerRequest (captureDNS ev resp)) = Except.error err) :
    createELB fields svc ev t =
      (captureDNS ev resp, some err,
        t ++ [Effect.createLoadBalancer (clientConfig fields ev) (createRequest fields ev),
          Effect.registerInstances (clientConfig fields ev)
            (registerRequest (captureDNS ev resp))]) := by
  simp [createELB, hc, hr]

theorem createELB_ok (fields : UndeclaredFields) (svc : ElbService)
    (ev : Event) (t : List Effect) (resp : CreateLoadBalancerOutput)
    (hc : svc.CreateLoadBalancer (clientConfig fields ev) (createRequest fields ev) =
      Except.ok resp)
    (hr : svc.RegisterInstancesWithLoadBalancer (clientConfig fields ev)
      (registerRequest (captureDNS ev resp)) = Except.ok ()) :
    createELB fields svc ev t =
      (captureDNS ev resp, none,
        t ++ [Effect.createLoadBalancer (clientConfig fields ev) (createRequest fields ev),
          Effect.registerInstances (clientConfig fields ev)
            (registerRequest (captureDNS ev resp))]) := by
  simp [createELB, hc, hr]

theorem eventHandler_decode_error (unmarshal : Bytes → Event → Event × Option GoError)
    (marshal : Event → Except GoError Payload) (fields : UndeclaredFields)
    (svc : ElbService) (data : Bytes) (ev : Event) (err : GoError)
    (h : unmarshal data Event.zero = (ev, some err)) :
    eventHandler unmarshal marshal fields svc data =
      Outcome.returned ev [Effect.publish errorSubject (Payload.raw data)] := by
  simp [eventHandler, process_decode_error unmarshal Event.zero ev data [] err h]

theorem eventHandler_invalid (unmarshal : Bytes → Event → Event × Option GoError)
    (marshal : Event → Except GoError Payload) (fields : UndeclaredFields)
    (svc : ElbService) (data : Bytes) (ev : Event) (verr : GoError)
    (h : unmarshal data Event.zero = (ev, none)) (hv : ev.Validate = some verr) :
    eventHandler unmarshal marshal fields svc data = Event.Error marshal ev verr [] := by
  simp [eventHandler, process_decode_ok unmarshal Event.zero ev data [] h, hv]

theorem eventHandler_create_failed (unmarshal : Bytes → Event → Event × Option GoError)
    (marshal : Event → Except GoError Payload) (fields : UndeclaredFields)
    (svc : ElbService) (data : Bytes) (ev : Event) (err : GoError)
    (h : unmarshal data Event.zero = (ev, none)) (hv : ev.Validate = none)
    (hc : svc.CreateLoadBalancer (clientConfig fields ev) (createRequest fields ev) =
      Except.error err) :
    eventHandler unmarshal marshal fields svc data =
      Event.Error marshal ev err
        [Effect.createLoadBalancer (clientConfig fields ev) (createRequest fields ev)] := by
  simp [eventHandler, process_decode_ok unmarshal Event.zero ev data [] h, hv,
    createELB_create_failed fields svc ev [] err hc]

theorem eventHandler_register_failed (unmarshal : Bytes → Event → Event × Option GoError)
    (marshal : Event → Except GoError Payload) (fields : UndeclaredFields)
    (svc : ElbService) (data : Bytes) (ev : Event) (resp : CreateLoadBalancerOutput)
    (err : GoError)
    (h : unmarshal data Event.zero = (ev, none)) (hv : ev.Validate = none)
    (hc : svc.CreateLoadBalancer (clientConfig fields ev) (createRequest fields ev) =
      Except.ok resp)
    (hr : svc.RegisterInstancesWithLoadBalancer (clientConfig fields ev)
      (registerRequest (captureDNS ev resp)) = Except.error err) :
    eventHandler unmarshal marshal fields svc data =
      Event.Error marshal (captureDNS ev resp) err
        [Effect.createLoadBalancer (clientConfig fields ev) (createRequest fields ev),
          Effect.registerInstances (clientConfig fields ev)
            (registerRequest (captureDNS ev resp))] := by
  simp [eventHandler, process_decode_ok unmarshal Event.zero ev data [] h, hv,
    createELB_register_failed fields svc ev [] resp err hc hr]

theorem eventHandler_ok (unmarshal : Bytes → Event → Event × Option GoError)
    (marshal : Event → Except GoError Payload) (fields : UndeclaredFields)
    (svc : ElbService) (data : Bytes) (ev : Event) (resp : CreateLoadBalancerOutput)
    (h : unmarshal data Event.zero = (ev, none)) (hv : ev.Validate = none)
    (hc : svc.CreateLoadBalancer (clientConfig fields ev) (createRequest fields ev) =
      Except.ok resp)
    (hr : svc.RegisterInstancesWithLoadBalancer (clientConfig fields ev)
      (registerRequest (captureDNS ev resp)) = Except.ok ()) :
    eventHandler unmarshal marshal fields svc data =
      Event.Complete marshal (captureDNS ev resp)
        [Effect.createLoadBalancer (clientConfig fields ev) (createRequest fields ev),
          Effect.registerInstances (clientConfig fields ev)
            (registerRequest (captureDNS ev resp))] := by
  simp [eventHandler, process_decode_ok unmarshal Event.zero ev data [] h, hv,
    createELB_ok fields svc ev [] resp hc hr]

/-! ## Lemmas on the document of an Event -/

theorem toJSON_field_dns_name (ev : Event) :
    ev.toJSON.field "dns_name" = some (JVal.str ev.ELBDNSName) := by
  by_cases hn : ev.DatacenterName = "" <;>
    simp [Event.toJSON, JVal.field, omitEmpty, hn, List.lookup]

theorem toJSON_field_error (ev : Event) :
    ev.toJSON.field "error" =
      if ev.ErrorMessage = "" then none else some (JVal.str ev.ErrorMessage) := by
  by_cases hn : ev.DatacenterName = "" <;> by_cases he : ev.ErrorMessage = "" <;>
    simp [Event.toJSON, JVal.field, omitEmpty, hn, he, List.lookup]

theorem toJSON_stringField_dns_name (ev : Event) :
    ev.toJSON.stringField "dns_name" = some ev.ELBDNSName := by
  simp [JVal.stringField, toJSON_field_dns_name]

theorem toJSON_hasKey_dns_name (ev : Event) : ev.toJSON.hasKey "dns_name" = true := by
  simp [JVal.hasKey, toJSON_field_dns_name]

theorem toJSON_emptyOrAbsent_error (ev : Event) :
    ev.toJSON.emptyOrAbsent "error" = decide (ev.ErrorMessage = "") := by
  by_cases he : ev.ErrorMessage = "" <;>
    simp [JVal.emptyOrAbsent, toJSON_field_error, he]

theorem toJSON_emptyOrAbsent_dns_name (ev : Event) :
    ev.toJSON.emptyOrAbsent "dns_name" = decide (ev.ELBDNSName = "") := by
  simp [JVal.emptyOrAbsent, toJSON_field_dns_name]

theorem error_trace (marshal : Event → Except GoError Payload) (ev : Event)
    (err : GoError) (t : List Effect) :
    ∃ last, (Event.Error marshal ev err t).trace =
        t ++ [Effect.log ("Error: " ++ err.msg), last] ∧ last.isProviderCall = false ∧
      (∀ d, last ≠ Effect.publish doneSubject d) := by
  simp only [Event.Error]
  cases hm : marshal (ev.setErrorMessage err.msg) with
  | error merr =>
    exact ⟨Effect.log merr.msg, by simp [Outcome.trace], rfl, fun d hd => by cases hd⟩
  | ok d =>
    refine ⟨Effect.publish "elb.create.aws.error" d, by simp [Outcome.trace], rfl, ?_⟩
    intro d2 hd
    simp [doneSubject] at hd

/-! ## C6: a payload that does not decode -/

/-- C6: when the inbound bytes fail to decode, `Process` returns the decode error
and the handler performs exactly one effect: it publishes the inbound bytes
themselves on elb.create.aws.error. No provider call and no further message
follows, whatever the serializer, the client and the event are. -/
theorem decode_failure_echoes_payload
    (unmarshal : Bytes → Event → Event × Option GoError)
    (marshal : Event → Except GoError Payload) (fields : UndeclaredFields)
    (svc : ElbService) (data : Bytes) (ev : Event) (err : GoError)
    (h : unmarshal data Event.zero = (ev, some err)) :
    (Event.Process unmarshal Event.zero data []).2.1 = some err ∧
    eventHandler unmarshal marshal fields svc data =
      Outcome.returned ev [Effect.publish "elb.create.aws.error" (Payload.raw data)] ∧
    published (eventHandler unmarshal marshal fields svc data).trace =
      [("elb.create.aws.error", Payload.raw data)] := by
  have hp := process_decode_error unmarshal Event.zero ev data [] err h
  have hh := eventHandler_decode_error unmarshal marshal fields svc data ev err h
  refine ⟨by rw [hp], ?_, ?_⟩
  · rw [hh]; rfl
  · rw [hh]; rfl

theorem decode_failure_echoes_payload_witness :
    (Event.Process rejects Event.zero sampleBytes []).2.1 =
      some ⟨"unexpected end of JSON input"⟩ ∧
    eventHandler rejects jsonMarshal renamedFields okService sampleBytes =
      Outcome.returned Event.zero
        [Effect.publish "elb.create.aws.error" (Payload.raw sampleBytes)] ∧
    published (eventHandler rejects jsonMarshal renamedFields okService sampleBytes).trace =
      [("elb.create.aws.error", Payload.raw sampleBytes)] :=
  decode_failure_echoes_payload rejects jsonMarshal renamedFields okService sampleBytes
    Event.zero ⟨"unexpected end of JSON input"⟩ rfl

/-! ## C9: the creation call fails -/

/-- C9: when the creation call fails, `createELB` returns that error at once: the
only effect it adds is the creation call, so no registration call is issued. The
handler, for an event that decoded and passed `Validate`, then logs, publishes the
event with the error message set on elb.create.aws.error, and publishes nothing
on elb.create.aws.done. -/
theorem create_failure_reported (fields : UndeclaredFields) (svc : ElbService)
    (ev : Event) (err : GoError)
    (hc : svc.CreateLoadBalancer (clientConfig fields ev) (createRequest fields ev) =
      Except.error err) :
    (∀ t : List Effect, createELB fields svc ev t =
      (ev, some err,
        t ++ [Effect.createLoadBalancer (clientConfig fields ev) (createRequest fields ev)])) ∧
    (∀ (unmarshal : Bytes → Event → Event × Option GoError) (data : Bytes),
      unmarshal data Event.zero = (ev, none) → ev.Validate = none →
      eventHandler unmarshal jsonMarshal fields svc data =
        Outcome.returned (ev.setErrorMessage err.msg)
          [Effect.createLoadBalancer (clientConfig fields ev) (createRequest fields ev),
            Effect.log ("Error: " ++ err.msg),
            Effect.publish "elb.create.aws.error"
              (Payload.document (ev.setErrorMessage err.msg).toJSON)] ∧
      publishedOn "elb.create.aws.error"
          (eventHandler unmarshal jsonMarshal fields svc data).trace =
        [Payload.document (ev.setErrorMessage err.msg).toJSON] ∧
      publishedOn "elb.create.aws.done"
          (eventHandler unmarshal jsonMarshal fields svc data).trace = [] ∧
      (∀ eff ∈ (eventHandler unmarshal jsonMarshal fields svc data).trace,
        eff.isRegisterCall = false)) := by
  refine ⟨fun t => createELB_create_failed fields svc ev t err hc, ?_⟩
  intro unmarshal data h hv
  have hh := eventHandler_create_failed unmarshal jsonMarshal fields svc data ev err h hv hc
  rw [hh, error_jsonMarshal]
  refine ⟨rfl, ?_, ?_, ?_⟩
  · simp [publishedOn, published, Outcome.trace, errorSubject]
  · simp [publishedOn, published, Outcome.trace, errorSubject]
  · intro eff heff
    simp [Outcome.trace] at heff
    rcases heff with rfl | rfl | rfl <;> rfl

theorem create_failure_reported_witness :
    createELB renamedFields createFailsService sampleEvent [] =
      (sampleEvent, some ⟨"RequestError: send request failed"⟩,
        [Effect.createLoadBalancer (clientConfig renamedFields sampleEvent)
          (createRequest renamedFields sampleEvent)]) ∧
    publishedOn "elb.create.aws.done"
      (eventHandler (decodesTo sampleEvent) jsonMarshal renamedFields createFailsService
        sampleBytes).trace = [] := by
  have h := create_failure_reported renamedFields createFailsService sampleEvent
    ⟨"RequestError: send request failed"⟩ rfl
  exact ⟨h.1 [], (h.2 (decodesTo sampleEvent) sampleBytes rfl (by decide)).2.2.1⟩

/-! ## C8: no provider call before a successful Validate -/

/-- C8: in a run of the handler a provider call happens only after the inbound
bytes decoded to an Event on which `Validate` returned no error: that Event has
non-empty VPC ID, region, token, secret and name, and the first effect of the run
is the creation call built from it. An Event with any of the five fields empty,
and a payload that does not decode, cause no provider call. -/
theorem provider_calls_only_after_validate
    (unmarshal : Bytes → Event → Event × Option GoError)
    (marshal : Event → Except GoError Payload) (fields : UndeclaredFields)
    (svc : ElbService) (data : Bytes) :
    ((∃ eff ∈ (eventHandler unmarshal marshal fields svc data).trace,
        eff.isProviderCall = true) →
      ∃ ev, unmarshal data Event.zero = (ev, none) ∧ ev.Validate = none ∧
        requiredFieldsSet ev ∧
        (eventHandler unmarshal marshal fields svc data).trace.head? =
          some (Effect.createLoadBalancer (clientConfig fields ev)
            (createRequest fields ev))) ∧
    (∀ ev, unmarshal data Event.zero = (ev, none) → ¬ requiredFieldsSet ev →
      ∀ eff ∈ (eventHandler unmarshal marshal fields svc data).trace,
        eff.isProviderCall = false) := by
  have invalid : ∀ ev verr, unmarshal data Event.zero = (ev, none) →
      ev.Validate = some verr →
      ∀ eff ∈ (eventHandler unmarshal marshal fields svc data).trace,
        eff.isProviderCall = false := by
    intro ev verr h hv eff heff
    rw [eventHandler_invalid unmarshal marshal fields svc data ev verr h hv] at heff
    obtain ⟨last, htr, hlast, _⟩ := error_trace marshal ev verr []
    rw [htr] at heff
    simp at heff
    rcases heff with rfl | rfl
    · rfl
    · exact hlast
  constructor
  · rintro ⟨eff, heff, hcall⟩
    rcases hu : unmarshal data Event.zero with ⟨ev, _ | err⟩
    · refine ⟨ev, rfl, ?_⟩
      cases hv : ev.Validate with
      | some verr =>
        have := invalid ev verr hu hv eff heff
        rw [this] at hcall
        cases hcall
      | none =>
        refine ⟨rfl, requiredFieldsSet_of_validate ev hv, ?_⟩
        cases hc : svc.CreateLoadBalancer (clientConfig fields ev) (createRequest fields ev) with
        | error err =>
          rw [eventHandler_create_failed unmarshal marshal fields svc data ev err hu hv hc]
          obtain ⟨last, htr, _, _⟩ := error_trace marshal ev err
            [Effect.createLoadBalancer (clientConfig fields ev) (createRequest fields ev)]
          rw [htr]; rfl
        | ok resp =>
          cases hr : svc.RegisterInstancesWithLoadBalancer (clientConfig fields ev)
              (registerRequest (captureDNS ev resp)) with
          | error err =>
            rw [eventHandler_register_failed unmarshal marshal fields svc data ev resp err
              hu hv hc hr]
            obtain ⟨last, htr, _, _⟩ := error_trace marshal (captureDNS ev resp) err
              [Effect.createLoadBalancer (clientConfig fields ev) (createRequest fields ev),
                Effect.registerInstances (clientConfig fields ev)
                  (registerRequest (captureDNS ev resp))]
            rw [htr]; rfl
          | ok u =>
            cases u
            rw [eventHandler_ok unmarshal marshal fields svc data ev resp hu hv hc hr]
            simp only [Event.Complete]
            cases hm : marshal (captureDNS ev resp) with
            | ok d => rfl
            | error merr =>
              simp only [Event.Error]
              cases hm2 : marshal ((captureDNS ev resp).setErrorMessage merr.msg) <;> rfl
    · rw [eventHandler_decode_error unmarshal marshal fields svc data ev err hu] at heff
      simp [Outcome.trace] at heff
      rw [heff] at hcall
      cases hcall
  · intro ev h hreq eff heff
    cases hv : ev.Validate with
    | some verr => exact invalid ev verr h hv eff heff
    | none => exact absurd (requiredFieldsSet_of_validate ev hv) hreq

theorem provider_calls_only_after_validate_witness :
    (∃ ev, decodesTo sampleEvent sampleBytes Event.zero = (ev, none) ∧ ev.Validate = none ∧
      requiredFieldsSet ev ∧
      (eventHandler (decodesTo sampleEvent) jsonMarshal renamedFields okService
          sampleBytes).trace.head? =
        some (Effect.createLoadBalancer (clientConfig renamedFields ev)
          (createRequest renamedFields ev))) ∧
    (∀ eff ∈ (eventHandler (decodesTo noVpcEvent) jsonMarshal renamedFields okService
        sampleBytes).trace, eff.isProviderCall = false) :=
  ⟨(provider_calls_only_after_validate (decodesTo sampleEvent) jsonMarshal renamedFields
      okService sampleBytes).1
      ⟨Effect.createLoadBalancer (clientConfig renamedFields sampleEvent)
        (createRequest renamedFields sampleEvent), List.Mem.head _, rfl⟩,
    (provider_calls_only_after_validate (decodesTo noVpcEvent) jsonMarshal renamedFields
      okService sampleBytes).2 noVpcEvent rfl (by decide)⟩

/-! ## C4: what Error publishes -/

/-- C4, as the code has it: `Error(err)` publishes exactly one message, on
elb.create.aws.error, whose payload is the serialized Event with the error
message set to the message of `err` (the member `error` is left out when that
message is empty). The member `dns_name` is always present and carries the DNS
name the Event held when `Error` was called: `Error` does not clear it. -/
theorem error_publishes_event (ev : Event) (err : GoError) (t : List Effect) :
    Event.Error jsonMarshal ev err t =
      Outcome.returned (ev.setErrorMessage err.msg)
        (t ++ [Effect.log ("Error: " ++ err.msg),
          Effect.publish "elb.create.aws.error"
            (Payload.document (ev.setErrorMessage err.msg).toJSON)]) ∧
    published (Event.Error jsonMarshal ev err []).trace =
      [("elb.create.aws.error", Payload.document (ev.setErrorMessage err.msg).toJSON)] ∧
    (ev.setErrorMessage err.msg).toJSON.field "error" =
      (if err.msg = "" then none else some (JVal.str err.msg)) ∧
    (ev.setErrorMessage err.msg).toJSON.field "dns_name" = some (JVal.str ev.ELBDNSName) := by
  refine ⟨error_jsonMarshal ev err t, ?_, ?_, ?_⟩
  · rw [error_jsonMarshal]; rfl
  · rw [toJSON_field_error]; rfl
  · rw [toJSON_field_dns_name]; rfl

/-- C4 fails as stated: `Error` on an Event that holds a DNS name publishes a
document in which `dns_name` is present and carries that name. -/
theorem error_keeps_dns_name :
    published (Event.Error jsonMarshal namedEvent ErrELBNameInvalid []).trace =
      [("elb.create.aws.error",
        Payload.document (namedEvent.setErrorMessage "ELB name is invalid").toJSON)] ∧
    (namedEvent.setErrorMessage "ELB name is invalid").toJSON.hasKey "dns_name" = true ∧
    (namedEvent.setErrorMessage "ELB name is invalid").toJSON.stringField "dns_name" =
      some "lb1.example.com" ∧
    (namedEvent.setErrorMessage "ELB name is invalid").toJSON.emptyOrAbsent "dns_name" =
      false := by
  refine ⟨?_, ?_, ?_, ?_⟩
  · rw [error_jsonMarshal]; rfl
  · rw [toJSON_hasKey_dns_name]
  · rw [toJSON_stringField_dns_name]; rfl
  · rw [toJSON_emptyOrAbsent_dns_name]; decide

/-! ## C3: what a successful run publishes -/

/-- C3, as the code has it: when the inbound bytes decode to an Event that passes
`Validate` and both provider calls succeed, the handler makes the two calls and
publishes one message, on elb.create.aws.done, whose payload is the serialized
Event with `dns_name` set to the DNS name of the creation response, whatever
`dns_name` the inbound payload carried (a response without a DNS name leaves the
decoded one in place). The member `error` is the one decoded from the inbound
payload: absent when that was empty, carried over unchanged otherwise. -/
theorem success_publishes_done
    (unmarshal : Bytes → Event → Event × Option GoError) (fields : UndeclaredFields)
    (svc : ElbService) (data : Bytes) (ev : Event) (resp : CreateLoadBalancerOutput)
    (h : unmarshal data Event.zero = (ev, none)) (hv : ev.Validate = none)
    (hc : svc.CreateLoadBalancer (clientConfig fields ev) (createRequest fields ev) =
      Except.ok resp)
    (hr : svc.RegisterInstancesWithLoadBalancer (clientConfig fields ev)
      (registerRequest (captureDNS ev resp)) = Except.ok ()) :
    eventHandler unmarshal jsonMarshal fields svc data =
      Outcome.returned (captureDNS ev resp)
        [Effect.createLoadBalancer (clientConfig fields ev) (createRequest fields ev),
          Effect.registerInstances (clientConfig fields ev)
            (registerRequest (captureDNS ev resp)),
          Effect.publish "elb.create.aws.done"
            (Payload.document (captureDNS ev resp).toJSON)] ∧
    published (eventHandler unmarshal jsonMarshal fields svc data).trace =
      [("elb.create.aws.done", Payload.document (captureDNS ev resp).toJSON)] ∧
    (captureDNS ev resp).toJSON.stringField "dns_name" =
      some (resp.DNSName.getD ev.ELBDNSName) ∧
    (captureDNS ev resp).toJSON.field "error" =
      (if ev.ErrorMessage = "" then none else some (JVal.str ev.ErrorMessage)) ∧
    (captureDNS ev resp).toJSON.emptyOrAbsent "error" = decide (ev.ErrorMessage = "") := by
  have hh := eventHandler_ok unmarshal jsonMarshal fields svc data ev resp h hv hc hr
  have herr : (captureDNS ev resp).ErrorMessage = ev.ErrorMessage := by
    unfold captureDNS; cases resp.DNSName <;> rfl
  have hdns : (captureDNS ev resp).ELBDNSName = resp.DNSName.getD ev.ELBDNSName := by
    unfold captureDNS; cases resp.DNSName <;> rfl
  rw [hh, complete_jsonMarshal]
  refine ⟨rfl, rfl, ?_, ?_, ?_⟩
  · rw [toJSON_stringField_dns_name, hdns]
  · rw [toJSON_field_error, herr]
  · rw [toJSON_emptyOrAbsent_error, herr]

theorem success_publishes_done_witness :
    published (eventHandler (decodesTo sampleEvent) jsonMarshal renamedFields okService
        sampleBytes).trace =
      [("elb.create.aws.done",
        Payload.document (captureDNS sampleEvent ⟨some "lb1.example.com"⟩).toJSON)] ∧
    (captureDNS sampleEvent ⟨some "lb1.example.com"⟩).toJSON.stringField "dns_name" =
      some "lb1.example.com" ∧
    (captureDNS sampleEvent ⟨some "lb1.example.com"⟩).toJSON.emptyOrAbsent "error" = true := by
  have h := success_publishes_done (decodesTo sampleEvent) renamedFields okService
    sampleBytes sampleEvent ⟨some "lb1.example.com"⟩ rfl (by decide) rfl rfl
  exact ⟨h.2.1, h.2.2.1, h.2.2.2.2⟩

/-- C3 fails as stated: an inbound payload that carries an error message decodes
to a valid Event, both provider calls succeed, and the message published on
elb.create.aws.done still carries that error message. -/
theorem done_carries_inbound_error :
    decodesTo staleResultEvent sampleBytes Event.zero = (staleResultEvent, none) ∧
    staleResultEvent.Validate = none ∧
    published (eventHandler (decodesTo staleResultEvent) jsonMarshal renamedFields okService
        sampleBytes).trace =
      [("elb.create.aws.done",
        Payload.document (captureDNS staleResultEvent ⟨some "lb1.example.com"⟩).toJSON)] ∧
    (captureDNS staleResultEvent ⟨some "lb1.example.com"⟩).toJSON.stringField "dns_name" =
      some "lb1.example.com" ∧
    (captureDNS staleResultEvent ⟨some "lb1.example.com"⟩).toJSON.stringField "error" =
      some "stale failure" ∧
    (captureDNS staleResultEvent ⟨some "lb1.example.com"⟩).toJSON.emptyOrAbsent "error" =
      false := by
  have hv : staleResultEvent.Validate = none := by decide
  have hh := eventHandler_ok (decodesTo staleResultEvent) jsonMarshal renamedFields okService
    sampleBytes staleResultEvent ⟨some "lb1.example.com"⟩ rfl hv rfl rfl
  refine ⟨rfl, hv, ?_, ?_, ?_, ?_⟩
  · rw [hh, complete_jsonMarshal]; rfl
  · rw [toJSON_stringField_dns_name]; rfl
  · simp only [JVal.stringField, toJSON_field_error]; rfl
  · rw [toJSON_emptyOrAbsent_error]; rfl

/-! ## Complete and serialization errors -/

/-- The serialization `Complete` and `Error` call reports no error on any Event,
so the `err != nil` branch of `Complete` is never taken. -/
theorem jsonMarshal_never_fails (ev : Event) (merr : GoError) :
    jsonMarshal ev ≠ Except.error merr := by
  intro h
  cases h

/-- What the text of `Complete` does for an arbitrary serializer. When `Marshal`
reports an error, `Error` is called; if `Error` returns, the `if` of `Complete`
has no `return`, so the publish on the done subject still runs, with the nil
data of the failed `Marshal`. -/
theorem complete_cases (marshal : Event → Except GoError Payload)
    (ev : Event) (t : List Effect) :
    Event.Complete marshal ev t =
      match marshal ev with
      | Except.ok data =>
        Outcome.returned ev (t ++ [Effect.publish "elb.create.aws.done" data])
      | Except.error merr =>
        match marshal (ev.setErrorMessage merr.msg) with
        | Except.error perr =>
          Outcome.panicked perr
            (t ++ [Effect.log ("Error: " ++ merr.msg), Effect.log perr.msg])
        | Except.ok d =>
          Outcome.returned (ev.setErrorMessage merr.msg)
            (t ++ [Effect.log ("Error: " ++ merr.msg),
              Effect.publish "elb.create.aws.error" d,
              Effect.publish "elb.create.aws.done" (Payload.raw [])]) := by
  cases h : marshal ev with
  | ok data => simp [Event.Complete, h]
  | error merr =>
    cases hm : marshal (ev.setErrorMessage merr.msg) with
    | error perr => simp [Event.Complete, Event.Error, h, hm]
    | ok d => simp [Event.Complete, Event.Error, h, hm]

/-! ## C7: the result fields of the terminal message -/

/-- C7 fails as stated: when registration fails after the load balancer was
created, the one message published goes to elb.create.aws.error and carries both
the DNS name of the creation response and the error message. -/
theorem registration_failure_reports_both :
    decodesTo sampleEvent sampleBytes Event.zero = (sampleEvent, none) ∧
    sampleEvent.Validate = none ∧
    published (eventHandler (decodesTo sampleEvent) jsonMarshal renamedFields
        registerFailsService sampleBytes).trace =
      [("elb.create.aws.error",
        Payload.document ((captureDNS sampleEvent ⟨some "lb1.example.com"⟩).setErrorMessage
          "InvalidInstance").toJSON)] ∧
    ((captureDNS sampleEvent ⟨some "lb1.example.com"⟩).setErrorMessage
      "InvalidInstance").toJSON.stringField "dns_name" = some "lb1.example.com" ∧
    ((captureDNS sampleEvent ⟨some "lb1.example.com"⟩).setErrorMessage
      "InvalidInstance").toJSON.stringField "error" = some "InvalidInstance" ∧
    ((captureDNS sampleEvent ⟨some "lb1.example.com"⟩).setErrorMessage
      "InvalidInstance").toJSON.emptyOrAbsent "dns_name" = false ∧
    ((captureDNS sampleEvent ⟨some "lb1.example.com"⟩).setErrorMessage
      "InvalidInstance").toJSON.emptyOrAbsent "error" = false := by
  have hv : sampleEvent.Validate = none := by decide
  have hh := eventHandler_register_failed (decodesTo sampleEvent) jsonMarshal renamedFields
    registerFailsService sampleBytes sampleEvent ⟨some "lb1.example.com"⟩
    ⟨"InvalidInstance"⟩ rfl hv rfl rfl
  refine ⟨rfl, hv, ?_, ?_, ?_, ?_, ?_⟩
  · rw [hh, error_jsonMarshal]; rfl
  · rw [toJSON_stringField_dns_name]; rfl
  · simp only [JVal.stringField, toJSON_field_error]; rfl
  · rw [toJSON_emptyOrAbsent_dns_name]; rfl
  · rw [toJSON_emptyOrAbsent_error]; rfl

/-- C7, as the code has it: a run of the handler on a decodable message publishes
exactly one message and does not panic. The message is the serialized Event
`final`, and it is either on elb.create.aws.done after both provider calls
succeeded (`final` is the decoded Event with the DNS name of the response
captured; its error message is the decoded one), or on elb.create.aws.error with
the error message set to the message of the failure: of `Validate` or of the
creation call (the DNS name of `final` is then the decoded one), or of the
registration call (the DNS name of `final` is then the captured one). So when the
decoded Event carried neither result field and registration does not fail after
a successful creation, the two result fields are not both populated. -/
theorem terminal_message_shape
    (unmarshal : Bytes → Event → Event × Option GoError) (fields : UndeclaredFields)
    (svc : ElbService) (data : Bytes) (ev : Event)
    (h : unmarshal data Event.zero = (ev, none)) :
    ∃ (subject : String) (final : Event),
      published (eventHandler unmarshal jsonMarshal fields svc data).trace =
        [(subject, Payload.document final.toJSON)] ∧
      (eventHandler unmarshal jsonMarshal fields svc data).isPanic = false ∧
      ((subject = "elb.create.aws.done" ∧ ev.Validate = none ∧
          ∃ resp, svc.CreateLoadBalancer (clientConfig fields ev) (createRequest fields ev) =
              Except.ok resp ∧
            svc.RegisterInstancesWithLoadBalancer (clientConfig fields ev)
              (registerRequest (captureDNS ev resp)) = Except.ok () ∧
            final = captureDNS ev resp) ∨
        (subject = "elb.create.aws.error" ∧
          ∃ verr, ev.Validate = some verr ∧ final = ev.setErrorMessage verr.msg) ∨
        (subject = "elb.create.aws.error" ∧ ev.Validate = none ∧
          ∃ err, svc.CreateLoadBalancer (clientConfig fields ev) (createRequest fields ev) =
              Except.error err ∧
            final = ev.setErrorMessage err.msg) ∨
        (subject = "elb.create.aws.error" ∧ ev.Validate = none ∧
          ∃ resp err,
            svc.CreateLoadBalancer (clientConfig fields ev) (createRequest fields ev) =
              Except.ok resp ∧
            svc.RegisterInstancesWithLoadBalancer (clientConfig fields ev)
              (registerRequest (captureDNS ev resp)) = Except.error err ∧
            final = (captureDNS ev resp).setErrorMessage err.msg)) ∧
      (ev.ELBDNSName = "" → ev.ErrorMessage = "" →
        (∀ resp err,
          svc.CreateLoadBalancer (clientConfig fields ev) (createRequest fields ev) =
            Except.ok resp →
          svc.RegisterInstancesWithLoadBalancer (clientConfig fields ev)
            (registerRequest (captureDNS ev resp)) ≠ Except.error err) →
        (final.toJSON.emptyOrAbsent "dns_name" = true ∨
          final.toJSON.emptyOrAbsent "error" = true)) := by
  have herr : ∀ resp, (captureDNS ev resp).ErrorMessage = ev.ErrorMessage := by
    intro resp; unfold captureDNS; cases resp.DNSName <;> rfl
  cases hv : ev.Validate with
  | some verr =>
    refine ⟨"elb.create.aws.error", ev.setErrorMessage verr.msg, ?_, ?_, ?_, ?_⟩
    · rw [eventHandler_invalid unmarshal jsonMarshal fields svc data ev verr h hv,
        error_jsonMarshal]; rfl
    · rw [eventHandler_invalid unmarshal jsonMarshal fields svc data ev verr h hv,
        error_jsonMarshal]; rfl
    · exact Or.inr (Or.inl ⟨rfl, verr, rfl, rfl⟩)
    · intro hd _ _
      left
      rw [toJSON_emptyOrAbsent_dns_name]
      exact decide_eq_true hd
  | none =>
    cases hc : svc.CreateLoadBalancer (clientConfig fields ev) (createRequest fields ev) with
    | error err =>
      refine ⟨"elb.create.aws.error", ev.setErrorMessage err.msg, ?_, ?_, ?_, ?_⟩
      · rw [eventHandler_create_failed unmarshal jsonMarshal fields svc data ev err h hv hc,
          error_jsonMarshal]; rfl
      · rw [eventHandler_create_failed unmarshal jsonMarshal fields svc data ev err h hv hc,
          error_jsonMarshal]; rfl
      · exact Or.inr (Or.inr (Or.inl ⟨rfl, rfl, err, rfl, rfl⟩))
      · intro hd _ _
        left
        rw [toJSON_emptyOrAbsent_dns_name]
        exact decide_eq_true hd
    | ok resp =>
      cases hr : svc.RegisterInstancesWithLoadBalancer (clientConfig fields ev)
          (registerRequest (captureDNS ev resp)) with
      | error err =>
        refine ⟨"elb.create.aws.error", (captureDNS ev resp).setErrorMessage err.msg,
          ?_, ?_, ?_, ?_⟩
        · rw [eventHandler_register_failed unmarshal jsonMarshal fields svc data ev resp err
            h hv hc hr, error_jsonMarshal]; rfl
        · rw [eventHandler_register_failed unmarshal jsonMarshal fields svc data ev resp err
            h hv hc hr, error_jsonMarshal]; rfl
        · exact Or.inr (Or.inr (Or.inr ⟨rfl, rfl, resp, err, rfl, hr, rfl⟩))
        · intro _ _ hno
          exact absurd hr (hno resp err rfl)
      | ok u =>
        cases u
        refine ⟨"elb.create.aws.done", captureDNS ev resp, ?_, ?_, ?_, ?_⟩
        · rw [eventHandler_ok unmarshal jsonMarshal fields svc data ev resp h hv hc hr,
            complete_jsonMarshal]; rfl
        · rw [eventHandler_ok unmarshal jsonMarshal fields svc data ev resp h hv hc hr,
            complete_jsonMarshal]; rfl
        · exact Or.inl ⟨rfl, rfl, resp, rfl, hr, rfl⟩
        · intro _ he _
          right
          rw [toJSON_emptyOrAbsent_error, herr resp]
          exact decide_eq_true he

theorem terminal_message_shape_witness :
    ∃ (subject : String) (final : Event),
      published (eventHandler (decodesTo noVpcEvent) jsonMarshal renamedFields okService
        sampleBytes).trace = [(subject, Payload.document final.toJSON)] ∧
      subject = "elb.create.aws.error" ∧
      final = noVpcEvent.setErrorMessage "Datacenter VPC ID invalid" := by
  obtain ⟨subject, final, hp, _, hcase, _⟩ :=
    terminal_message_shape (decodesTo noVpcEvent) renamedFields okService sampleBytes
      noVpcEvent rfl
  have hv : noVpcEvent.Validate = some ErrDatacenterIDInvalid := by decide
  refine ⟨subject, final, hp, ?_⟩
  rcases hcase with ⟨_, hn, _⟩ | ⟨hs, verr, hverr, hf⟩ | ⟨_, hn, _⟩ | ⟨_, hn, _⟩
  · rw [hv] at hn; cases hn
  · rw [hv] at hverr
    cases hverr
    exact ⟨hs, hf⟩
  · rw [hv] at hn; cases hn
  · rw [hv] at hn; cases hn

/-! ## C10: mapListeners -/

/-- C10 on the code: `mapListeners` ranges over `ev.ELBPorts`, a name the struct
`Event` does not declare, and not over the declared listener sequence
`ELBListeners`. Its result follows whatever `ELBPorts` holds: same length, same
order, the i-th descriptor having the from-port as load-balancer port, the
to-port as instance port and the protocol on both sides. -/
theorem mapListeners_follows_ELBPorts (fields : UndeclaredFields) (ev : Event) :
    mapListeners fields ev = (elems (fields.ELBPorts ev)).map listenerLiteral ∧
    (mapListeners fields ev).length = (elems (fields.ELBPorts ev)).length ∧
    (∀ i : Nat, (mapListeners fields ev)[i]? =
      ((elems (fields.ELBPorts ev))[i]?).map listenerLiteral) ∧
    (∀ port : Listener,
      (listenerLiteral port).LoadBalancerPort = port.FromPort ∧
      (listenerLiteral port).InstancePort = port.ToPort ∧
      (listenerLiteral port).Protocol = port.Protocol ∧
      (listenerLiteral port).InstanceProtocol = port.Protocol) := by
  have hmap : mapListeners fields ev = (elems (fields.ELBPorts ev)).map listenerLiteral := by
    unfold mapListeners
    rw [foldl_append_singleton]
    rfl
  refine ⟨hmap, ?_, ?_, ?_⟩
  · rw [hmap, List.length_map]
  · intro i
    rw [hmap, List.getElem?_map]
  · intro port
    exact ⟨rfl, rfl, rfl, rfl⟩

end ElbCreator
